import Mathlib

/-!
Verification of the screamplayer-rs core against its design document.

The Rust source is shallowly embedded: bytes are `Nat` (each < 256),
machine-integer casts are explicit `%`/floor operations, floating-point
values are carried as their exact rational values with every `f32`
operation rounded to nearest even on a 24-bit significand (`rn24`; the
`f64` divisions in the sample converter are exact at the divisors used),
and fallible or panicking code paths return `Except Unit`. Stateful code
(the UDP receive loop in `client.rs`) is embedded as an explicit step
function on a state record.
-/

namespace Scream

/-! ## Header codec (src/scream.rs)

A Scream header is the first five bytes of a packet; we carry headers and
packets as `List Nat` of byte values. `sample_rate`, `sample_bits`,
`channels` and `sample_bytes` embed the `ScreamHeader` impl for
`ScreamHeaderArray`.
-/

def SCREAM_PACKET_MAX_SIZE : Nat := 1157

def RING_BUFFER_SIZE : Nat := 1024 * 10

/-- Byte 0 of the header: bit 7 selects the base rate (0 means 48000,
1 means 44100) and bits 0 to 6 are the multiplier. Embeds
`ScreamHeaderArray::sample_rate`; `self[0]` on the fixed 5-byte array is
`getD 0`. -/
def sample_rate (h : List Nat) : Nat :=
  let rate_byte := h.getD 0 0
  let multiplier := rate_byte &&& 127
  if rate_byte &&& 128 = 0 then 48000 * multiplier else 44100 * multiplier

/-- Byte 1 of the header, used directly as bits per sample. Embeds
`ScreamHeaderArray::sample_bits`. -/
def sample_bits (h : List Nat) : Nat :=
  h.getD 1 0

/-- The channel-count byte is never decoded; the source hardcodes 2.
Embeds `ScreamHeaderArray::channels`. -/
def channels (_h : List Nat) : Nat := 2

/-- Bytes per sample, integer division. Embeds
`ScreamHeader::sample_bytes`. -/
def sample_bytes (h : List Nat) : Nat :=
  sample_bits h / 8

/-! ## Rate adaptation engine (src/output_stream.rs) -/

inductive OutputMode where
  | Stopped
  | ChuggingAlong
  | PlaySlower
  | PlayFaster
deriving DecidableEq, Repr

/-- Round a scaled significand to the nearest integer, ties to even, as
IEEE round-to-nearest-even does on the significand. -/
def roundHalfEven (m : ℚ) : ℤ :=
  if m - ⌊m⌋ < 1/2 then ⌊m⌋
  else if 1/2 < m - ⌊m⌋ then ⌊m⌋ + 1
  else if ⌊m⌋ % 2 = 0 then ⌊m⌋ else ⌊m⌋ + 1

/-- The exact value of the nearest `f32` to a nonnegative rational:
scale into the binade `[2^23, 2^24)` using the base-2 integer logarithm,
round the 24-bit significand to nearest even, and scale back. Exponent
overflow (beyond 2^104) and subnormal loss (below 2^-126) cannot occur
for the magnitudes produced in `get_output_mode` (zero, or between
1/1.2 and about 2^65), so they are not modelled. -/
def rn24 (x : ℚ) : ℚ :=
  if x ≤ 0 then 0
  else (roundHalfEven (x / 2 ^ (Int.log 2 x - 23)) : ℚ) * 2 ^ (Int.log 2 x - 23)

/-- `f32` multiplication: IEEE requires the exact product correctly
rounded to the nearest representable value. -/
def f32mul (x y : ℚ) : ℚ := rn24 (x * y)

/-- `f32` division: IEEE requires the exact quotient correctly rounded
to the nearest representable value. -/
def f32div (x y : ℚ) : ℚ := rn24 (x / y)

/-- The Rust `(x as usize)` cast of a nonnegative `f32` value truncates
toward zero and saturates at the type's maximum (usize taken as 64 bits,
matching the targets the program builds for). -/
def usizeOfQ (q : ℚ) : Nat := min ⌊q⌋.toNat (2 ^ 64 - 1)

/-- The `f32` literal `0.5` is exactly 1/2. -/
def START_PLAYING_SLOWER_FACTOR : ℚ := 1/2

/-- The `f32` literal `2.0` is exactly 2. -/
def START_PLAYING_FASTER_FACTOR : ℚ := 2

/-- The `f32` literal `1.1` rounds to exactly 9227469/2^23
(1.10000002384185791015625). -/
def REVERT_TO_CHUGGING_ALONG_FACTOR : ℚ := 9227469 / 2 ^ 23

/-- Embeds `get_output_mode` from src/output_stream.rs, with the `f32`
threshold arithmetic modelled exactly: `samples_requested as f32` rounds
the integer to the nearest 24-bit significand (`rn24`), each product or
quotient with a factor constant is correctly rounded (`f32mul`,
`f32div`), and the `as usize` casts truncate, saturating at the usize
maximum. -/
def get_output_mode (current_output_mode : OutputMode)
    (samples_requested samples_available : Nat) : OutputMode :=
  if samples_available = 0 then
    .Stopped
  else if current_output_mode = .Stopped ∧ samples_available > samples_requested then
    .ChuggingAlong
  else if samples_available <
      usizeOfQ (f32mul (rn24 samples_requested) START_PLAYING_SLOWER_FACTOR) then
    .PlaySlower
  else if samples_available >
      usizeOfQ (f32mul (rn24 samples_requested) START_PLAYING_FASTER_FACTOR) then
    .PlayFaster
  else
    let back_to_chug_low :=
      usizeOfQ (f32div (rn24 samples_requested) REVERT_TO_CHUGGING_ALONG_FACTOR)
    let back_to_chug_high :=
      usizeOfQ (f32mul (rn24 samples_requested) REVERT_TO_CHUGGING_ALONG_FACTOR)
    if back_to_chug_low < samples_available ∧ samples_available < back_to_chug_high then
      .ChuggingAlong
    else
      current_output_mode

/-- The spec's six transition rules, taken verbatim with their
real-number arithmetic: rules 3 to 5 compare `samples_available` against
the exact rational thresholds slower = 0.5, faster = 2.0 and
normal = 1.1, with no rounding and no truncation to an integer. Written
from the spec's words for comparison with `get_output_mode`. -/
def spec_output_mode (current : OutputMode)
    (samples_requested samples_available : Nat) : OutputMode :=
  if samples_available = 0 then
    .Stopped
  else if current = .Stopped ∧ samples_available > samples_requested then
    .ChuggingAlong
  else if (samples_available : ℚ) < samples_requested * (1/2) then
    .PlaySlower
  else if (samples_available : ℚ) > samples_requested * 2 then
    .PlayFaster
  else if (samples_requested : ℚ) / (11/10) < samples_available
      ∧ (samples_available : ℚ) < samples_requested * (11/10) then
    .ChuggingAlong
  else
    current

/-- The spec's six rules amended to the code's arithmetic: rules 3 to 5
compare against the thresholds computed in `f32` (requested rounded to
`f32`; product or quotient with the `f32` constant correctly rounded)
and truncated to an integer, saturating at the usize maximum. -/
def spec_output_mode_f32 (current : OutputMode)
    (samples_requested samples_available : Nat) : OutputMode :=
  if samples_available = 0 then
    .Stopped
  else if current = .Stopped ∧ samples_available > samples_requested then
    .ChuggingAlong
  else if (samples_available : ℤ) <
      min ⌊f32mul (rn24 samples_requested) START_PLAYING_SLOWER_FACTOR⌋ (2 ^ 64 - 1) then
    .PlaySlower
  else if (samples_available : ℤ) >
      min ⌊f32mul (rn24 samples_requested) START_PLAYING_FASTER_FACTOR⌋ (2 ^ 64 - 1) then
    .PlayFaster
  else if min ⌊f32div (rn24 samples_requested) REVERT_TO_CHUGGING_ALONG_FACTOR⌋ (2 ^ 64 - 1)
        < (samples_available : ℤ)
      ∧ (samples_available : ℤ) <
        min ⌊f32mul (rn24 samples_requested) REVERT_TO_CHUGGING_ALONG_FACTOR⌋ (2 ^ 64 - 1) then
    .ChuggingAlong
  else
    current

/-! ## Sample conversion (src/client.rs) -/

/-- Embeds `convert_to_f32_sample::<FROM_SIGNED_BIT_INT>`: the `f64`
division is modelled exactly over `ℚ` (for the divisors `2^(N-1)` and
`2^(N-1) - 1` with `N` in 16, 24, 32, the `f64` powers are exact). Note
the two branches use different divisors. -/
def convert_to_f32_sample (N : Nat) (i : ℚ) : ℚ :=
  if i < 0 then
    i / 2 ^ (N - 1)
  else
    i / (2 ^ (N - 1) - 1)

/-- Modelled from the spec's words for comparison: "normalized =
v / 2^(N-1) if v ≥ 0, else v / 2^(N-1) (symmetric)", i.e. one divisor
for the whole range. -/
def spec_normalize (N : Nat) (v : ℚ) : ℚ :=
  v / 2 ^ (N - 1)

/-- Little-endian unsigned value of a list of bytes. -/
def leValue : List Nat → Nat
  | [] => 0
  | b :: bs => b + 256 * leValue bs

/-- Reinterpret an unsigned `w`-bit value as signed two's complement. -/
def toSigned (w : Nat) (v : Nat) : Int :=
  if v < 2 ^ (w - 1) then (v : Int) else (v : Int) - 2 ^ w

/-- Embeds `byteorder::LittleEndian::read_i16`: panics (modelled as
`Except.error`) when fewer than two bytes are available. -/
def read_i16 (c : List Nat) : Except Unit Int :=
  if c.length < 2 then .error () else .ok (toSigned 16 (leValue (c.take 2)))

/-- Embeds `byteorder::LittleEndian::read_i24` (three bytes,
sign-extended). -/
def read_i24 (c : List Nat) : Except Unit Int :=
  if c.length < 3 then .error () else .ok (toSigned 24 (leValue (c.take 3)))

/-- Embeds `byteorder::LittleEndian::read_i32` (four bytes). -/
def read_i32 (c : List Nat) : Except Unit Int :=
  if c.length < 4 then .error () else .ok (toSigned 32 (leValue (c.take 4)))

def MAX_CHANNELS : Nat := 10

/-- The bit-depth match arm inside `convert_to_sample`: 16, 24 and 32
bits read and normalize one channel chunk; every other depth yields 0.0. -/
def channelValue (bits : Nat) (c : List Nat) : Except Unit ℚ :=
  if bits = 16 then (read_i16 c).map (fun v => convert_to_f32_sample 16 (v : ℚ))
  else if bits = 24 then (read_i24 c).map (fun v => convert_to_f32_sample 24 (v : ℚ))
  else if bits = 32 then (read_i32 c).map (fun v => convert_to_f32_sample 32 (v : ℚ))
  else .ok 0

/-- Embeds Rust `slice::chunks(n)` in closed form: chunk `i` is the `n`
elements starting at `i * n`, the last chunk possibly shorter; there are
`⌈len / n⌉` chunks. The Rust call panics for `n = 0`; callers of this
model guard that case before calling. -/
def chunksList (n : Nat) (l : List α) : List (List α) :=
  (List.range ((l.length + n - 1) / n)).map (fun i => (l.drop (i * n)).take n)

/-- Embeds Rust `slice::chunks_exact(n)`: only the `len / n` complete
chunks; the remainder is dropped. Callers guard the `n = 0` panic. -/
def chunksExactList (n : Nat) (l : List α) : List (List α) :=
  (List.range (l.length / n)).map (fun i => (l.drop (i * n)).take n)

/-- The body of the `for` loop in `convert_to_sample`: the assignment
`new_buf[i] = match ...` evaluates the converted value and writes it at
index `i`, panicking (modelled as `Except.error`) when `i` is out of
bounds of the ten-slot array. -/
def convertFold (bits : Nat) (new_buf : List ℚ) (ic : Nat × List Nat) :
    Except Unit (List ℚ) :=
  (channelValue bits ic.2).bind
    (fun v => if ic.1 < MAX_CHANNELS then .ok (new_buf.set ic.1 v) else .error ())

/-- Embeds `convert_to_sample` from src/client.rs: `new_buf` starts as
ten zeros; the payload is split into chunks of `sample_bytes` bytes
(`chunks(0)` panics when the bit depth is below 8), and chunk `i` is
converted and written to slot `i`. -/
def convert_to_sample (header sample : List Nat) : Except Unit (List ℚ) :=
  if sample_bytes header = 0 then .error ()
  else
    (chunksList (sample_bytes header) sample).enum.foldlM
      (convertFold (sample_bits header)) (List.replicate MAX_CHANNELS 0)

/-! ## Playback session and receive loop (src/client.rs, src/output_stream.rs)

`ScreamReader::read` is embedded as a step function from a reader state
and a receive event to `Except Unit` of the next state; `Except.error`
marks a Rust panic. Device and stream handles are external collaborators:
opening and playing the cpal stream is modelled as always succeeding, and
an `AudioPlayer` carries the stream configuration that
`create_audio_player` builds from the header together with the ring
buffer contents (front of the list is the oldest sample).
-/

abbrev BufferSample := List ℚ

structure AudioPlayer where
  streamSampleRate : Nat
  streamChannels : Nat
  buffer : List BufferSample
deriving DecidableEq, Repr

/-- Embeds `create_audio_player`: a fresh ring buffer of capacity
`RING_BUFFER_SIZE` and a stream config taking the header's channel count
and sample rate unchecked (a 0 Hz rate is passed through to the device
layer as-is). -/
def create_audio_player (header : List Nat) : AudioPlayer :=
  { streamSampleRate := sample_rate header
    streamChannels := channels header
    buffer := [] }

/-- Ring-buffer `push`: on a full buffer the sample is dropped (the code
prints "Buffer overflow" and carries on). -/
def ringPush (buf : List BufferSample) (s : BufferSample) : List BufferSample :=
  if buf.length < RING_BUFFER_SIZE then buf ++ [s] else buf

/-- The reader state: `playing = none` is `ScreamReaderState::Waiting`;
`previous_header` and the persistent 1157-byte receive buffer `buf` are
the other mutable fields of `ScreamReader`. -/
structure ScreamReaderState where
  playing : Option AudioPlayer
  previous_header : List Nat
  buf : List Nat
deriving DecidableEq, Repr

/-- The reader state after `ScreamReader::new`: waiting, previous header
and receive buffer zeroed. -/
def initState : ScreamReaderState :=
  { playing := none
    previous_header := List.replicate 5 0
    buf := List.replicate SCREAM_PACKET_MAX_SIZE 0 }

/-- A socket receive outcome: a timeout, or a datagram of `data` bytes
(truncated by the OS to the 1157-byte buffer). Other socket errors
propagate out of `read` unchanged and are not modelled. -/
inductive RecvEvent where
  | timeout
  | packet (data : List Nat)

/-- The `for sample_bytes in packet_sample_bytes` loop of
`ScreamReader::read`: convert every complete frame and push it into the
ring buffer. -/
def pushSamples (header samples : List Nat) (buffer : List BufferSample) :
    Except Unit (List BufferSample) :=
  (chunksExactList (sample_bytes header * channels header) samples).foldlM
    (fun b chunk => (convert_to_sample header chunk).map (ringPush b)) buffer

/-- Embeds `ScreamReader::read`. A timeout tears down a playing session
and returns `Ok`. A datagram is written over the front of the persistent
buffer; `&self.buf[5..size]` panics when the received size is below 5;
a missing session or a header change constructs a fresh session from the
packet's header (stream opening modelled as succeeding) before the
payload frames are pushed; `chunks_exact(0)` panics when
`sample_bytes * channels` is 0. -/
def read (s : ScreamReaderState) (ev : RecvEvent) : Except Unit ScreamReaderState :=
  match ev with
  | .timeout =>
    if s.playing.isSome then .ok { s with playing := none } else .ok s
  | .packet data =>
    let size := min data.length SCREAM_PACKET_MAX_SIZE
    let buf1 := data.take size ++ s.buf.drop size
    let header := buf1.take 5
    if size < 5 then .error ()
    else
      let samples := (buf1.take size).drop 5
      let st :=
        if s.playing.isNone ∨ s.previous_header ≠ header then
          { playing := some (create_audio_player header)
            previous_header := header
            buf := buf1 }
        else
          { s with buf := buf1 }
      match st.playing with
      | some player =>
        if sample_bytes header * channels header = 0 then .error ()
        else
          (pushSamples header samples player.buffer).map
            (fun nb => { st with playing := some { player with buffer := nb } })
      | none => .ok st

/-! ## The audio callback's sample selection (src/output_stream.rs) -/

/-- Embeds `get_sample`: the ring-buffer consumer is passed as the list
of buffered samples and returned after the pops; `NoSamplesInBufferError`
is the `Except.error` case. `PlayFaster` pops an extra sample and emits
the second; `PlaySlower` re-emits the held sample on even iterations. -/
def get_sample (output_mode : OutputMode) (cons : List BufferSample)
    (last_sample : BufferSample) (iteration : Int) :
    Except Unit BufferSample × List BufferSample :=
  match output_mode with
  | .Stopped => (.ok last_sample, cons)
  | .ChuggingAlong =>
    match cons with
    | [] => (.error (), [])
    | x :: xs => (.ok x, xs)
  | .PlayFaster =>
    match cons with
    | [] => (.error (), [])
    | _ :: xs =>
      match xs with
      | [] => (.error (), [])
      | y :: ys => (.ok y, ys)
  | .PlaySlower =>
    if iteration % 2 = 0 then (.ok last_sample, cons)
    else
      match cons with
      | [] => (.error (), [])
      | x :: xs => (.ok x, xs)

/-- The callback's `get_sample(...).unwrap_or(last_sample)` at the call
site in `build_output_stream`. -/
def unwrapOr (r : Except Unit BufferSample) (d : BufferSample) : BufferSample :=
  match r with
  | .ok a => a
  | .error _ => d

/-! ## Concrete inputs used by the witness theorems -/

/-- A previously buffered sample (all channels at 1.0). -/
def wOld : BufferSample := List.replicate 10 1

/-- A 9-byte packet: a 16-bit 48 kHz header followed by one stereo frame
holding the most negative and the most positive 16-bit values. -/
def wPkt : List Nat := [1, 16, 0, 0, 0, 0, 128, 255, 127]

/-- The converted frame of `wPkt` (values left as unevaluated
normalizations). -/
def wSample : BufferSample :=
  [convert_to_f32_sample 16 (-32768), convert_to_f32_sample 16 32767,
   0, 0, 0, 0, 0, 0, 0, 0]

/-- A 5-byte packet agreeing with `wPkt` in rate and bit-depth bytes but
differing in the reserved bytes 2 to 4. -/
def wPkt2 : List Nat := [1, 16, 9, 9, 9]

/-! ## Helper lemmas -/

theorem roundHalfEven_eq (m : ℚ) (n : ℤ) (h1 : (n : ℚ) - 1/2 < m)
    (h2 : m < (n : ℚ) + 1/2) : roundHalfEven m = n := by
  have hub : ⌊m⌋ ≤ n := by
    have hlt : m < ((n + 1 : ℤ) : ℚ) := by push_cast; linarith
    have := Int.floor_lt.mpr hlt
    omega
  have hlb : n - 1 ≤ ⌊m⌋ := by
    apply Int.le_floor.mpr
    push_cast
    linarith
  have hfl : (⌊m⌋ : ℚ) ≤ m := Int.floor_le m
  have hfl2 : m < (⌊m⌋ : ℚ) + 1 := Int.lt_floor_add_one m
  unfold roundHalfEven
  rcases (by omega : ⌊m⌋ = n ∨ ⌊m⌋ = n - 1) with he | he
  · rw [if_pos]
    · exact he
    · rw [he]
      linarith
  · rw [if_neg, if_pos]
    · omega
    · rw [he]
      push_cast
      linarith
    · rw [he]
      push_cast
      intro hcon
      linarith

theorem int_log2_eq (x : ℚ) (e : ℤ) (h1 : (2 : ℚ) ^ e ≤ x) (h2 : x < 2 ^ (e + 1)) :
    Int.log 2 x = e := by
  have hx : 0 < x := lt_of_lt_of_le (zpow_pos (by norm_num) e) h1
  have ha : (2 : ℚ) ^ Int.log 2 x ≤ x := Int.zpow_log_le_self (by norm_num) hx
  have hb : x < (2 : ℚ) ^ (Int.log 2 x + 1) := Int.lt_zpow_succ_log_self (by norm_num) x
  by_contra hne
  rcases lt_or_gt_of_ne hne with hlt | hlt
  · have : (2 : ℚ) ^ (Int.log 2 x + 1) ≤ 2 ^ e := by
      apply zpow_le_zpow_right₀ (by norm_num)
      omega
    linarith
  · have : (2 : ℚ) ^ (e + 1) ≤ 2 ^ Int.log 2 x := by
      apply zpow_le_zpow_right₀ (by norm_num)
      omega
    linarith

/-- The rounded value of any rational in the binade `[2^(e+23), 2^(e+24))`
whose nearest multiple of `2^e` is `n * 2^e` at distance strictly below
half an ulp. -/
theorem rn24_eq_of (x : ℚ) (n e : ℤ)
    (h1 : (2 : ℚ) ^ (e + 23) ≤ x) (h2 : x < 2 ^ (e + 24))
    (h3 : ((n : ℚ) - 1/2) * 2 ^ e < x) (h4 : x < ((n : ℚ) + 1/2) * 2 ^ e) :
    rn24 x = (n : ℚ) * 2 ^ e := by
  have hx : 0 < x := lt_of_lt_of_le (zpow_pos (by norm_num) _) h1
  have hlog : Int.log 2 x = e + 23 := by
    apply int_log2_eq x (e + 23) h1
    have : e + 23 + 1 = e + 24 := by ring
    rw [this]
    exact h2
  have hpow : (0 : ℚ) < 2 ^ e := zpow_pos (by norm_num) e
  have hr : roundHalfEven (x / 2 ^ e) = n := by
    apply roundHalfEven_eq
    · rw [lt_div_iff₀ hpow]
      exact h3
    · rw [div_lt_iff₀ hpow]
      exact h4
  unfold rn24
  rw [if_neg (by linarith), hlog]
  have : e + 23 - 23 = e := by ring
  rw [this, hr]

theorem rn24_nonneg (x : ℚ) : 0 ≤ rn24 x := by
  unfold rn24
  by_cases hx : x ≤ 0
  · simp [hx]
  · rw [if_neg hx]
    push_neg at hx
    have hpow : (0 : ℚ) < 2 ^ (Int.log 2 x - 23) := zpow_pos (by norm_num) _
    have hm : 0 < x / 2 ^ (Int.log 2 x - 23) := div_pos hx hpow
    have hfl : 0 ≤ ⌊x / 2 ^ (Int.log 2 x - 23)⌋ := Int.floor_nonneg.mpr (le_of_lt hm)
    have hrhe : 0 ≤ roundHalfEven (x / 2 ^ (Int.log 2 x - 23)) := by
      unfold roundHalfEven
      split
      · exact hfl
      · split
        · omega
        · split
          · exact hfl
          · omega
    positivity

theorem usizeOfQ_lt (a : Nat) (q : ℚ) :
    a < usizeOfQ q ↔ (a : ℤ) < min ⌊q⌋ (2 ^ 64 - 1) := by
  unfold usizeOfQ
  have h64 : (2 : ℕ) ^ 64 - 1 = 18446744073709551615 := by norm_num
  have h64i : (2 : ℤ) ^ 64 - 1 = 18446744073709551615 := by norm_num
  rw [h64, h64i]
  omega

theorem usizeOfQ_gt (a : Nat) (q : ℚ) (hq : 0 ≤ q) :
    usizeOfQ q < a ↔ min ⌊q⌋ (2 ^ 64 - 1) < (a : ℤ) := by
  have hfl : 0 ≤ ⌊q⌋ := Int.floor_nonneg.mpr hq
  unfold usizeOfQ
  have h64 : (2 : ℕ) ^ 64 - 1 = 18446744073709551615 := by norm_num
  have h64i : (2 : ℤ) ^ 64 - 1 = 18446744073709551615 := by norm_num
  rw [h64, h64i]
  omega

theorem rn24_100 : rn24 ((100 : Nat) : ℚ) = 100 := by
  have h := rn24_eq_of 100 13107200 (-17) (by norm_num) (by norm_num) (by norm_num)
    (by norm_num)
  push_cast
  rw [h]
  norm_num

theorem rn24_101 : rn24 ((101 : Nat) : ℚ) = 101 := by
  have h := rn24_eq_of 101 13238272 (-17) (by norm_num) (by norm_num) (by norm_num)
    (by norm_num)
  push_cast
  rw [h]
  norm_num

/-- The four truncated thresholds of `get_output_mode` at
samples_requested = 100. -/
theorem C1_thr100 :
    usizeOfQ (f32mul (rn24 ((100 : Nat) : ℚ)) START_PLAYING_SLOWER_FACTOR) = 50 ∧
    usizeOfQ (f32mul (rn24 ((100 : Nat) : ℚ)) START_PLAYING_FASTER_FACTOR) = 200 ∧
    usizeOfQ (f32div (rn24 ((100 : Nat) : ℚ)) REVERT_TO_CHUGGING_ALONG_FACTOR) = 90 ∧
    usizeOfQ (f32mul (rn24 ((100 : Nat) : ℚ)) REVERT_TO_CHUGGING_ALONG_FACTOR) = 110 := by
  rw [rn24_100]
  unfold f32mul f32div usizeOfQ START_PLAYING_SLOWER_FACTOR START_PLAYING_FASTER_FACTOR
    REVERT_TO_CHUGGING_ALONG_FACTOR
  refine ⟨?_, ?_, ?_, ?_⟩
  · rw [rn24_eq_of _ 13107200 (-18) (by norm_num) (by norm_num) (by norm_num) (by norm_num)]
    norm_num
    rfl
  · rw [rn24_eq_of _ 13107200 (-16) (by norm_num) (by norm_num) (by norm_num) (by norm_num)]
    norm_num
    rfl
  · rw [rn24_eq_of _ 11915636 (-17) (by norm_num) (by norm_num) (by norm_num) (by norm_num)]
    norm_num
    rfl
  · rw [rn24_eq_of _ 14417920 (-17) (by norm_num) (by norm_num) (by norm_num) (by norm_num)]
    norm_num
    rfl

/-- The four truncated thresholds of `get_output_mode` at
samples_requested = 101. -/
theorem C1_thr101 :
    usizeOfQ (f32mul (rn24 ((101 : Nat) : ℚ)) START_PLAYING_SLOWER_FACTOR) = 50 ∧
    usizeOfQ (f32mul (rn24 ((101 : Nat) : ℚ)) START_PLAYING_FASTER_FACTOR) = 202 ∧
    usizeOfQ (f32div (rn24 ((101 : Nat) : ℚ)) REVERT_TO_CHUGGING_ALONG_FACTOR) = 91 ∧
    usizeOfQ (f32mul (rn24 ((101 : Nat) : ℚ)) REVERT_TO_CHUGGING_ALONG_FACTOR) = 111 := by
  rw [rn24_101]
  unfold f32mul f32div usizeOfQ START_PLAYING_SLOWER_FACTOR START_PLAYING_FASTER_FACTOR
    REVERT_TO_CHUGGING_ALONG_FACTOR
  refine ⟨?_, ?_, ?_, ?_⟩
  · rw [rn24_eq_of _ 13238272 (-18) (by norm_num) (by norm_num) (by norm_num) (by norm_num)]
    norm_num
    rfl
  · rw [rn24_eq_of _ 13238272 (-16) (by norm_num) (by norm_num) (by norm_num) (by norm_num)]
    norm_num
    rfl
  · rw [rn24_eq_of _ 12034792 (-17) (by norm_num) (by norm_num) (by norm_num) (by norm_num)]
    norm_num
    rfl
  · rw [rn24_eq_of _ 14562100 (-17) (by norm_num) (by norm_num) (by norm_num) (by norm_num)]
    norm_num
    rfl

theorem set_replicate_self (a : α) (n i : Nat) :
    (List.replicate n a).set i a = List.replicate n a := by
  induction n generalizing i with
  | zero => rfl
  | succ n ih =>
    cases i with
    | zero => simp [List.replicate_succ]
    | succ i => simp [List.replicate_succ, ih]

theorem channelValue_unsupported (bits : Nat) (h16 : bits ≠ 16) (h24 : bits ≠ 24)
    (h32 : bits ≠ 32) (c : List Nat) : channelValue bits c = .ok 0 := by
  simp [channelValue, h16, h24, h32]

theorem foldlM_convertFold_zero (bits : Nat)
    (hb : ∀ c, channelValue bits c = .ok 0) :
    ∀ (qs : List (Nat × List Nat)), (∀ q ∈ qs, q.1 < MAX_CHANNELS) →
      qs.foldlM (convertFold bits) (List.replicate MAX_CHANNELS (0 : ℚ)) =
        .ok (List.replicate MAX_CHANNELS 0)
  | [], _ => rfl
  | q :: qs, h => by
    have hq : q.1 < MAX_CHANNELS := h q (List.mem_cons_self q qs)
    have hrest : ∀ r ∈ qs, r.1 < MAX_CHANNELS := fun r hr => h r (List.mem_cons_of_mem q hr)
    have step : convertFold bits (List.replicate MAX_CHANNELS (0 : ℚ)) q =
        .ok (List.replicate MAX_CHANNELS 0) := by
      simp [convertFold, hb q.2, hq, set_replicate_self, Except.bind]
    rw [List.foldlM_cons, step]
    exact foldlM_convertFold_zero bits hb qs hrest

theorem chunksList_length (n : Nat) (l : List α) :
    (chunksList n l).length = (l.length + n - 1) / n := by
  simp [chunksList]

/-- How `ScreamReader::read` handles a well-sized packet whose header
matches the active session: the frames are pushed into the session's
existing buffer. -/
theorem read_packet_same (s : ScreamReaderState) (p : AudioPlayer) (data : List Nat)
    (h5 : 5 ≤ data.length) (hmax : data.length ≤ SCREAM_PACKET_MAX_SIZE)
    (hp : s.playing = some p) (hsame : s.previous_header = data.take 5) :
    read s (.packet data) =
      if sample_bytes (data.take 5) * channels (data.take 5) = 0 then .error ()
      else
        (pushSamples (data.take 5) (data.drop 5) p.buffer).map
          (fun nb => { playing := some { p with buffer := nb }
                       previous_header := s.previous_header
                       buf := data ++ s.buf.drop data.length }) := by
  obtain ⟨pl, prev, bf⟩ := s
  simp only at hp hsame
  subst hp hsame
  have hsize : min data.length SCREAM_PACKET_MAX_SIZE = data.length := Nat.min_eq_left hmax
  have hno : ¬ (data.length < 5) := by omega
  simp [read, hsize, hno, List.take_left, List.take_append_of_le_length h5,
    List.take_length]

/-- How `ScreamReader::read` handles a well-sized packet when no session
is active or the header changed: a fresh session is constructed from the
packet's header and the frames are pushed into its empty buffer. -/
theorem read_packet_new (s : ScreamReaderState) (data : List Nat)
    (h5 : 5 ≤ data.length) (hmax : data.length ≤ SCREAM_PACKET_MAX_SIZE)
    (hnew : s.playing = none ∨ s.previous_header ≠ data.take 5) :
    read s (.packet data) =
      if sample_bytes (data.take 5) * channels (data.take 5) = 0 then .error ()
      else
        (pushSamples (data.take 5) (data.drop 5) []).map
          (fun nb => { playing := some { streamSampleRate := sample_rate (data.take 5)
                                         streamChannels := channels (data.take 5)
                                         buffer := nb }
                       previous_header := data.take 5
                       buf := data ++ s.buf.drop data.length }) := by
  obtain ⟨pl, prev, bf⟩ := s
  have hsize : min data.length SCREAM_PACKET_MAX_SIZE = data.length := Nat.min_eq_left hmax
  have hno : ¬ (data.length < 5) := by omega
  rcases hnew with h | h
  · simp only at h
    subst h
    simp [read, hsize, hno, List.take_left, List.take_append_of_le_length h5,
      List.take_length, create_audio_player]
  · simp only at h
    simp [read, hsize, hno, List.take_left, List.take_append_of_le_length h5,
      List.take_length, create_audio_player, h]

/-! ## Claim theorems -/

/-- C1 counterexample: at current mode ChuggingAlong, samples_requested =
101 and samples_available = 50, the spec's rule 3 (50 < 101 × 0.5 = 50.5)
gives PlaySlower, but the code computes the threshold in f32 and
truncates it to the integer 50, so 50 < 50 fails and `get_output_mode`
keeps ChuggingAlong: it does not follow the spec's six rules as stated. -/
theorem C1_counterexample :
    get_output_mode .ChuggingAlong 101 50 = .ChuggingAlong ∧
    spec_output_mode .ChuggingAlong 101 50 = .PlaySlower ∧
    get_output_mode .ChuggingAlong 101 50 ≠ spec_output_mode .ChuggingAlong 101 50 := by
  have hcode : get_output_mode .ChuggingAlong 101 50 = .ChuggingAlong := by
    unfold get_output_mode
    rw [C1_thr101.1, C1_thr101.2.1, C1_thr101.2.2.1, C1_thr101.2.2.2]
    norm_num
  have hspec : spec_output_mode .ChuggingAlong 101 50 = .PlaySlower := by
    norm_num [spec_output_mode]
  refine ⟨hcode, hspec, ?_⟩
  rw [hcode, hspec]
  exact fun h => OutputMode.noConfusion h

/-- C1 amended: `get_output_mode` follows the spec's six rules evaluated
in order once the rule 3 to 5 thresholds are computed as the code
computes them — samples_requested converted to f32 (round to nearest
even on a 24-bit significand), multiplied by the f32 constants 0.5, 2.0
and 1.1 or divided by f32 1.1 with each operation correctly rounded, and
the result cast to usize (truncating, saturating) — and the spec's
concrete examples at samples_requested = 100 hold as stated: available 0
gives Stopped, 40 gives PlaySlower, 250 gives PlayFaster, and 105 gives
ChuggingAlong both from ChuggingAlong and from Stopped. -/
theorem C1_get_output_mode_rules :
    (∀ (c : OutputMode) (r a : Nat),
      get_output_mode c r a = spec_output_mode_f32 c r a) ∧
    get_output_mode .ChuggingAlong 100 0 = .Stopped ∧
    get_output_mode .ChuggingAlong 100 40 = .PlaySlower ∧
    get_output_mode .ChuggingAlong 100 250 = .PlayFaster ∧
    get_output_mode .ChuggingAlong 100 105 = .ChuggingAlong ∧
    get_output_mode .Stopped 100 105 = .ChuggingAlong := by
  constructor
  case left =>
    intro c r a
    have g1 := usizeOfQ_lt a (f32mul (rn24 r) START_PLAYING_SLOWER_FACTOR)
    have g2 := usizeOfQ_gt a (f32mul (rn24 r) START_PLAYING_FASTER_FACTOR)
      (rn24_nonneg _)
    have g3 := usizeOfQ_gt a (f32div (rn24 r) REVERT_TO_CHUGGING_ALONG_FACTOR)
      (rn24_nonneg _)
    have g4 := usizeOfQ_lt a (f32mul (rn24 r) REVERT_TO_CHUGGING_ALONG_FACTOR)
    simp only [get_output_mode, spec_output_mode_f32, gt_iff_lt, g1, g2, g3, g4]
  case right =>
    refine ⟨?_, ?_, ?_, ?_, ?_⟩
    all_goals unfold get_output_mode
    all_goals rw [C1_thr100.1, C1_thr100.2.1, C1_thr100.2.2.1, C1_thr100.2.2.2]
    all_goals norm_num
    all_goals exact fun h => OutputMode.noConfusion h

/-- C1 witness: the f32-threshold rule characterization of
`C1_get_output_mode_rules` at a concrete input. -/
theorem C1_witness :
    get_output_mode .PlaySlower 200 150 = spec_output_mode_f32 .PlaySlower 200 150 :=
  C1_get_output_mode_rules.1 .PlaySlower 200 150

/-- C2 counterexample: for 16-bit input the code divides nonnegative
values by 2^15 − 1 = 32767, not by 2^15, so value 32767 maps to exactly
1.0 instead of 32767/32768: the divisor is not the same for v ≥ 0 and
v < 0. -/
theorem C2_counterexample :
    convert_to_f32_sample 16 32767 = 1 ∧
    spec_normalize 16 32767 = 32767 / 32768 ∧
    convert_to_f32_sample 16 32767 ≠ spec_normalize 16 32767 := by
  refine ⟨?_, ?_, ?_⟩ <;> norm_num [convert_to_f32_sample, spec_normalize]

/-- C2 amended: sample normalization divides a signed N-bit value v by
2^(N−1) when v < 0 but by 2^(N−1) − 1 when v ≥ 0 (for N in 16, 24, 32);
for 16-bit input, value 0 maps to 0.0, value −32768 maps to exactly −1.0,
and value 32767 maps to exactly 1.0. -/
theorem C2_convert_to_f32_sample_divisors :
    (∀ (N : Nat) (i : ℚ), i < 0 → convert_to_f32_sample N i = i / 2 ^ (N - 1)) ∧
    (∀ (N : Nat) (i : ℚ), 0 ≤ i → convert_to_f32_sample N i = i / (2 ^ (N - 1) - 1)) ∧
    convert_to_f32_sample 16 0 = 0 ∧
    convert_to_f32_sample 16 (-32768) = -1 ∧
    convert_to_f32_sample 16 32767 = 1 := by
  refine ⟨?_, ?_, ?_, ?_, ?_⟩
  · intro N i hi
    simp [convert_to_f32_sample, hi]
  · intro N i hi
    simp [convert_to_f32_sample, not_lt.mpr hi]
  · norm_num [convert_to_f32_sample]
  · norm_num [convert_to_f32_sample]
  · norm_num [convert_to_f32_sample]

/-- C2 witness: the two divisor clauses of
`C2_convert_to_f32_sample_divisors` applied at 24-bit inputs −2^23 and
100. -/
theorem C2_witness :
    convert_to_f32_sample 24 (-8388608) = -8388608 / 2 ^ 23 ∧
    convert_to_f32_sample 24 100 = 100 / (2 ^ 23 - 1) :=
  ⟨C2_convert_to_f32_sample_divisors.1 24 (-8388608) (by norm_num),
   C2_convert_to_f32_sample_divisors.2.1 24 100 (by norm_num)⟩

/-- C3: the code does not drop a short packet cleanly. A 3-byte datagram
reaches `&self.buf[5..size]` with `size = 3`, and a range slice whose
start exceeds its end panics, so `ScreamReader::read` panics (modelled as
`Except.error`) instead of dropping the packet with the state unchanged. -/
theorem C3_short_packet_panics :
    read initState (.packet [1, 16, 0]) = .error () := by
  rfl

set_option maxRecDepth 4096 in
/-- C4: for every header byte 0 below 256, the decoded sample rate is
the base selected by bit 7 (0 gives 48000, 1 gives 44100) times the
multiplier in bits 0 to 6, and the spec's five concrete bytes decode as
stated. -/
theorem C4_sample_rate_decoding :
    (∀ (b : Nat), b < 256 → ∀ (rest : List Nat),
      sample_rate (b :: rest) = (if b < 128 then 48000 else 44100) * (b % 128)) ∧
    sample_rate [0x00, 16, 0, 0, 0] = 0 ∧
    sample_rate [0x01, 16, 0, 0, 0] = 48000 ∧
    sample_rate [0x02, 16, 0, 0, 0] = 96000 ∧
    sample_rate [0x81, 16, 0, 0, 0] = 44100 ∧
    sample_rate [0x82, 16, 0, 0, 0] = 88200 := by
  refine ⟨?_, by decide, by decide, by decide, by decide, by decide⟩
  intro b hb rest
  have key : ∀ b : Fin 256,
      (if (b : Nat) &&& 128 = 0 then 48000 * ((b : Nat) &&& 127)
       else 44100 * ((b : Nat) &&& 127)) =
      (if (b : Nat) < 128 then 48000 else 44100) * ((b : Nat) % 128) := by
    decide
  simpa [sample_rate] using key ⟨b, hb⟩

/-- C4 witness: the decoding rule of `C4_sample_rate_decoding` applied
at byte 0x82. -/
theorem C4_witness :
    sample_rate [0x82, 16, 0, 0, 0] =
      (if (0x82 : Nat) < 128 then 48000 else 44100) * (0x82 % 128) :=
  C4_sample_rate_decoding.1 0x82 (by decide) [16, 0, 0, 0]

/-- C6: a socket timeout makes `ScreamReader::read` return Ok; a playing
session is torn down to Waiting with the previous header and receive
buffer untouched (so no replacement session is constructed), and a
waiting reader is left entirely unchanged. -/
theorem C6_timeout_handling (s : ScreamReaderState) :
    read s .timeout =
      .ok { playing := none
            previous_header := s.previous_header
            buf := s.buf } ∧
    (s.playing = none → read s .timeout = .ok s) := by
  obtain ⟨pl, prev, bf⟩ := s
  cases pl <;> simp [read]

/-- C6 witness: `C6_timeout_handling` applied to the initial waiting
state, whose hypothesis holds by rfl. -/
theorem C6_witness : read initState .timeout = .ok initState :=
  (C6_timeout_handling initState).2 rfl

/-- C7: the code does not treat a multiplier-0 header as invalid. The
header decodes to 0 Hz as claimed, but `ScreamReader::read` still
constructs a playback session from such a packet, passing sample rate 0
to the device stream configuration. -/
theorem C7_zero_rate_session_constructed :
    sample_rate [0, 16, 0, 0, 0] = 0 ∧
    (read initState (.packet [0, 16, 0, 0, 0])).map
      (fun st => st.playing.map AudioPlayer.streamSampleRate) = .ok (some 0) :=
  ⟨rfl, rfl⟩

/-- C9: in PlayFaster mode with exactly one buffered sample, `get_sample`
pops and discards that sample, fails on the second pop, and the callback's
`unwrap_or(last_sample)` emits the held sample: the buffered sample is
lost rather than played. -/
theorem C9_playfaster_underrun_loses_sample (one last : BufferSample)
    (iteration : Int) :
    get_sample .PlayFaster [one] last iteration = (.error (), []) ∧
    unwrapOr (get_sample .PlayFaster [one] last iteration).1 last = last :=
  ⟨rfl, rfl⟩

/-- C9 witness: `C9_playfaster_underrun_loses_sample` at a concrete
buffered sample and held sample. -/
theorem C9_witness :
    get_sample .PlayFaster [wOld] wSample 3 = (.error (), []) ∧
    unwrapOr (get_sample .PlayFaster [wOld] wSample 3).1 wSample = wSample :=
  C9_playfaster_underrun_loses_sample wOld wSample 3

/-- C5: session lifecycle of the receive loop, for any well-sized packet
whose header has a nonzero frame size. A packet whose 5-byte header
equals the active session's header pushes its frames into the existing
buffer; a packet whose header differs constructs a fresh session whose
buffer starts empty (the old buffer's samples are discarded); a packet
arriving with no active session constructs a fresh session from its
header. -/
theorem C5_session_lifecycle :
    (∀ (s : ScreamReaderState) (p : AudioPlayer) (data : List Nat),
      5 ≤ data.length → data.length ≤ SCREAM_PACKET_MAX_SIZE →
      s.playing = some p → s.previous_header = data.take 5 →
      sample_bytes (data.take 5) * channels (data.take 5) ≠ 0 →
      read s (.packet data) =
        (pushSamples (data.take 5) (data.drop 5) p.buffer).map
          (fun nb => { playing := some { p with buffer := nb }
                       previous_header := s.previous_header
                       buf := data ++ s.buf.drop data.length })) ∧
    (∀ (s : ScreamReaderState) (p : AudioPlayer) (data : List Nat),
      5 ≤ data.length → data.length ≤ SCREAM_PACKET_MAX_SIZE →
      s.playing = some p → s.previous_header ≠ data.take 5 →
      sample_bytes (data.take 5) * channels (data.take 5) ≠ 0 →
      read s (.packet data) =
        (pushSamples (data.take 5) (data.drop 5) []).map
          (fun nb => { playing := some { streamSampleRate := sample_rate (data.take 5)
                                         streamChannels := channels (data.take 5)
                                         buffer := nb }
                       previous_header := data.take 5
                       buf := data ++ s.buf.drop data.length })) ∧
    (∀ (s : ScreamReaderState) (data : List Nat),
      5 ≤ data.length → data.length ≤ SCREAM_PACKET_MAX_SIZE →
      s.playing = none →
      sample_bytes (data.take 5) * channels (data.take 5) ≠ 0 →
      read s (.packet data) =
        (pushSamples (data.take 5) (data.drop 5) []).map
          (fun nb => { playing := some { streamSampleRate := sample_rate (data.take 5)
                                         streamChannels := channels (data.take 5)
                                         buffer := nb }
                       previous_header := data.take 5
                       buf := data ++ s.buf.drop data.length })) := by
  refine ⟨?_, ?_, ?_⟩
  · intro s p data h5 hmax hp hsame hk
    rw [read_packet_same s p data h5 hmax hp hsame, if_neg hk]
  · intro s p data h5 hmax hp hdiff hk
    rw [read_packet_new s data h5 hmax (Or.inr hdiff), if_neg hk]
  · intro s data h5 hmax hnone hk
    rw [read_packet_new s data h5 hmax (Or.inl hnone), if_neg hk]

/-- C5 witness: the three clauses of `C5_session_lifecycle` at the
packet `wPkt`: a matching header appends the converted frame after the
old buffered sample, a changed header and a waiting reader both yield a
fresh session holding only the new frame. -/
theorem C5_witness :
    read { playing := some { streamSampleRate := 48000, streamChannels := 2
                             buffer := [wOld] }
           previous_header := [1, 16, 0, 0, 0]
           buf := List.replicate 1157 0 } (.packet wPkt) =
      .ok { playing := some { streamSampleRate := 48000, streamChannels := 2
                              buffer := [wOld, wSample] }
            previous_header := [1, 16, 0, 0, 0]
            buf := wPkt ++ List.replicate 1148 0 } ∧
    read { playing := some { streamSampleRate := 48000, streamChannels := 2
                             buffer := [wOld] }
           previous_header := [2, 16, 0, 0, 0]
           buf := List.replicate 1157 0 } (.packet wPkt) =
      .ok { playing := some { streamSampleRate := 48000, streamChannels := 2
                              buffer := [wSample] }
            previous_header := [1, 16, 0, 0, 0]
            buf := wPkt ++ List.replicate 1148 0 } ∧
    read { playing := none
           previous_header := [1, 16, 0, 0, 0]
           buf := List.replicate 1157 0 } (.packet wPkt) =
      .ok { playing := some { streamSampleRate := 48000, streamChannels := 2
                              buffer := [wSample] }
            previous_header := [1, 16, 0, 0, 0]
            buf := wPkt ++ List.replicate 1148 0 } := by
  refine ⟨?_, ?_, ?_⟩
  · rw [C5_session_lifecycle.1 _
      { streamSampleRate := 48000, streamChannels := 2, buffer := [wOld] } wPkt
      (by decide) (by decide) rfl rfl (by decide)]
    rfl
  · rw [C5_session_lifecycle.2.1 _
      { streamSampleRate := 48000, streamChannels := 2, buffer := [wOld] } wPkt
      (by decide) (by decide) rfl (by decide) (by decide)]
    rfl
  · rw [C5_session_lifecycle.2.2 _ wPkt (by decide) (by decide) rfl (by decide)]
    rfl

/-- C10: session identity is byte-for-byte equality of the whole 5-byte
header. A packet that agrees with the previous header in decoded sample
rate and bit depth but differs somewhere in the header still tears the
session down and recreates it with an empty buffer, discarding all
buffered samples. -/
theorem C10_header_identity_is_bytewise (s : ScreamReaderState) (p : AudioPlayer)
    (data : List Nat)
    (hlen : data.length = 5)
    (_hp : s.playing = some p)
    (_hrate : sample_rate data = sample_rate s.previous_header)
    (_hbits : sample_bits data = sample_bits s.previous_header)
    (hne : s.previous_header ≠ data)
    (hk : sample_bytes data * channels data ≠ 0) :
    read s (.packet data) =
      .ok { playing := some (create_audio_player data)
            previous_header := data
            buf := data ++ s.buf.drop 5 } ∧
    (create_audio_player data).buffer = [] := by
  have htake : data.take 5 = data := List.take_of_length_le (by omega)
  have h5 : 5 ≤ data.length := by omega
  have hmax : data.length ≤ SCREAM_PACKET_MAX_SIZE := by
    unfold SCREAM_PACKET_MAX_SIZE
    omega
  constructor
  · rw [read_packet_new s data h5 hmax (by rw [htake]; exact Or.inr hne)]
    rw [htake, if_neg hk]
    have hdrop : data.drop 5 = [] := List.drop_eq_nil_of_le (by omega)
    rw [hdrop, hlen]
    simp [pushSamples, chunksExactList, Nat.zero_div, create_audio_player]
    rfl
  · rfl

/-- C10 witness: `C10_header_identity_is_bytewise` at the packet
`wPkt2`, which decodes to the same 48000 Hz and 16 bits as the session
header `[1, 16, 0, 0, 0]` yet differs in the reserved bytes, so the
session holding `wOld` is replaced by one with an empty buffer. -/
theorem C10_witness :
    sample_rate wPkt2 = sample_rate [1, 16, 0, 0, 0] ∧
    sample_bits wPkt2 = sample_bits [1, 16, 0, 0, 0] ∧
    read { playing := some { streamSampleRate := 48000, streamChannels := 2
                             buffer := [wOld] }
           previous_header := [1, 16, 0, 0, 0]
           buf := List.replicate 1157 0 } (.packet wPkt2) =
      .ok { playing := some (create_audio_player wPkt2)
            previous_header := wPkt2
            buf := wPkt2 ++ List.replicate 1152 0 } ∧
    (create_audio_player wPkt2).buffer = [] := by
  refine ⟨by decide, by decide, ?_, ?_⟩
  · rw [(C10_header_identity_is_bytewise _
      { streamSampleRate := 48000, streamChannels := 2, buffer := [wOld] } wPkt2
      (by decide) rfl (by decide) (by decide) (by decide) (by decide)).1]
    rfl
  · rfl

/-- C8 counterexample: a header with bit depth 4 has
`sample_bytes() == 0`, so `convert_to_sample` calls `chunks(0)`, which
panics (modelled as `Except.error`) instead of returning 0.0 in every
channel slot. -/
theorem C8_counterexample :
    convert_to_sample [0, 4, 0, 0, 0] [0] = .error () := rfl

/-- C8 amended: for every header whose bit depth is at least 8 and not
in 16, 24 or 32, and every payload slice of at most 10 × bytes_per_sample
bytes — at most ten per-channel chunks; the read loop only ever passes
one frame of `sample_bytes × channels` bytes, i.e. two chunks —
`convert_to_sample` returns 0.0 in every channel slot without panicking.
Beyond ten chunks the `new_buf[10]` write panics, as the second conjunct
shows at an 11-byte payload with bit depth 8. -/
theorem C8_unsupported_depth_gives_zeros :
    (∀ (b0 bits : Nat) (rest sample : List Nat),
      8 ≤ bits → bits ≠ 16 → bits ≠ 24 → bits ≠ 32 →
      sample.length ≤ MAX_CHANNELS * (bits / 8) →
      convert_to_sample (b0 :: bits :: rest) sample =
        .ok (List.replicate MAX_CHANNELS 0)) ∧
    convert_to_sample [0, 8, 0, 0, 0] (List.replicate 11 0) = .error () := by
  constructor
  case left =>
    intro b0 bits rest sample h8 h16 h24 h32 hlen
    have hbits : sample_bits (b0 :: bits :: rest) = bits := rfl
    have hsb : sample_bytes (b0 :: bits :: rest) = bits / 8 := rfl
    have hsb0 : ¬ (bits / 8 = 0) := by omega
    have h1 : 0 < bits / 8 := by omega
    have hidx : ∀ q ∈ (chunksList (bits / 8) sample).enum, q.1 < MAX_CHANNELS := by
      have hcount : (chunksList (bits / 8) sample).length ≤ MAX_CHANNELS := by
        rw [chunksList_length]
        simp only [MAX_CHANNELS] at hlen ⊢
        have h3 := (Nat.div_lt_iff_lt_mul h1).mpr
          (show sample.length + bits / 8 - 1 < 11 * (bits / 8) by omega)
        omega
      intro q hq
      have h' := List.mem_enum_iff_getElem?.mp hq
      have hlt : q.1 < (chunksList (bits / 8) sample).length := by
        by_contra hcon
        rw [List.getElem?_eq_none (le_of_not_lt hcon)] at h'
        cases h'
      omega
    unfold convert_to_sample
    rw [hsb, hbits, if_neg hsb0]
    exact foldlM_convertFold_zero bits (channelValue_unsupported bits h16 h24 h32) _ hidx
  case right =>
    rfl

/-- C8 witness: the no-panic clause of
`C8_unsupported_depth_gives_zeros` at an 8-bit header and a two-byte
payload. -/
theorem C8_witness :
    convert_to_sample [1, 8, 0, 0, 0] [5, 7] = .ok (List.replicate MAX_CHANNELS 0) :=
  C8_unsupported_depth_gives_zeros.1 1 8 [0, 0, 0] [5, 7] (by decide) (by decide)
    (by decide) (by decide) (by decide)

end Scream
